import Mathlib

/-!
Verification of the file-upload and media-thumbnailing service.

Shallow embedding of the three handlers:
  * the Upload/API handler (lambda/upload-handler/handler.ts, both variants),
  * the Metadata Updater (lambda/metadata-updater/handler.ts, both variants),
  * the Media Converter (the EventBridge "Object Created" handler).

The object store (S3) and the metadata table (DynamoDB) are external
collaborators; they are embedded as association lists with the conditional
semantics the handlers rely on (PutItem upsert, UpdateItem with
attribute_exists, DeleteItem/DeleteObject unconditional).  Timestamps
(new Date().toISOString(), Date.now()) and uuidv4 identifiers are external
inputs and appear as explicit parameters.
-/

namespace FileUploadAws

/-- A row of the metadata table (DynamoDB item), as created by the upload
handler (status "pending") and mutated by the metadata updater. -/
structure FileRecord where
  fileName : String
  contentType : String
  status : String
  createdAt : String
  uploadedAt : Option String := none
  fileSize : Option Nat := none
deriving Repr, DecidableEq

/-- An object stored in the bucket: its declared Content-Type and body bytes. -/
structure S3Object where
  contentType : String := ""
  body : List Nat := []
deriving Repr, DecidableEq

/-- The metadata table keyed by fileId. -/
abbrev Table := List (String × FileRecord)

/-- The object store keyed by object key. -/
abbrev ObjectStore := List (String × S3Object)

/-- Lookup in the metadata table. -/
def lookupTable : Table → String → Option FileRecord
  | [], _ => none
  | (k, r) :: t, key => if k = key then some r else lookupTable t key

/-- DynamoDB PutItem: unconditional upsert of the row at the key. -/
def putTable : Table → String → FileRecord → Table
  | [], key, r => [(key, r)]
  | (k, r0) :: t, key, r =>
    if k = key then (key, r) :: t else (k, r0) :: putTable t key r

/-- DynamoDB DeleteItem: unconditional removal of the row at the key. -/
def deleteTable : Table → String → Table
  | [], _ => []
  | (k, r) :: t, key =>
    if k = key then deleteTable t key else (k, r) :: deleteTable t key

/-- Lookup in the object store. -/
def lookupStore : ObjectStore → String → Option S3Object
  | [], _ => none
  | (k, o) :: s, key => if k = key then some o else lookupStore s key

/-- S3 DeleteObject: unconditional removal (succeeds even when absent). -/
def deleteStore : ObjectStore → String → ObjectStore
  | [], _ => []
  | (k, o) :: s, key =>
    if k = key then deleteStore s key else (k, o) :: deleteStore s key

theorem lookupTable_putTable (t : Table) (key k : String) (r : FileRecord) :
    lookupTable (putTable t key r) k =
      if key = k then some r else lookupTable t k := by
  induction t with
  | nil =>
    by_cases h : key = k <;> simp [putTable, lookupTable, h]
  | cons hd tl ih =>
    obtain ⟨k0, r0⟩ := hd
    simp only [putTable]
    by_cases h0 : k0 = key
    · subst h0
      by_cases h : k0 = k
      · simp [lookupTable, h]
      · simp [lookupTable, h]
    · simp only [if_neg h0]
      by_cases h : k0 = k
      · subst h
        have hk : ¬ key = k0 := fun h' => h0 h'.symm
        simp [lookupTable, hk]
      · simp [lookupTable, h, ih]

theorem lookupTable_deleteTable (t : Table) (key k : String) :
    lookupTable (deleteTable t key) k =
      if key = k then none else lookupTable t k := by
  induction t with
  | nil => by_cases h : key = k <;> simp [deleteTable, lookupTable, h]
  | cons hd tl ih =>
    obtain ⟨k0, r0⟩ := hd
    simp only [deleteTable]
    by_cases h0 : k0 = key
    · subst h0
      by_cases h : k0 = k
      · subst h
        simp [lookupTable, ih]
      · simp [lookupTable, h, ih]
    · simp only [if_neg h0]
      by_cases h : k0 = k
      · subst h
        have hk : ¬ key = k0 := fun h' => h0 h'.symm
        simp [lookupTable, hk]
      · simp [lookupTable, h, ih]

/-! ## Upload/API handler (lambda/upload-handler/handler.ts) -/

/-- isValidFileName from the upload handler:
name.length > 0 && name.length <= 255 && !name.includes("/"). -/
def isValidFileName (name : String) : Bool :=
  decide (0 < name.length) && decide (name.length ≤ 255)
    && !(name.toList.contains '/')

/-- A character matched by the character class of the upload handler's
content-type regex: word characters (letters, digits, underscore), hyphen,
plus, dot, slash. -/
def isContentTypeChar (c : Char) : Bool :=
  c.isAlphanum || c == '_' || c == '-' || c == '+' || c == '.' || c == '/'

/-- isValidContentType from the upload handler:
the whole string matches one-or-more characters of the class above
(the anchored regex) and type.length <= 100. -/
def isValidContentType (type : String) : Bool :=
  (decide (0 < type.length) && type.toList.all isContentTypeChar)
    && decide (type.length ≤ 100)

/-- The JSON bodies the upload handler returns. -/
inductive ApiBody where
  | errorMsg (msg : String)
  | uploadOk (fileId : String) (uploadUrl : String)
  | downloadOk (downloadUrl : String)
  | thumbnailOk (thumbnailUrl : String)
  | messageOk (message : String)
deriving Repr, DecidableEq

/-- An HTTP response of the upload handler (CORS headers elided: they are the
same constant on every response). -/
structure ApiResponse where
  statusCode : Nat
  body : ApiBody
deriving Repr, DecidableEq

/-- Modelled from the spec: signed-PUT issuance (getSignedUrl on a
PutObjectCommand) is local URL construction by the presigner; it performs no
object-store write.  The URL is abstracted as a string determined by the key
and content type. -/
def getSignedUrlPut (key contentType : String) : String :=
  "https://signed-put/" ++ key ++ "?contentType=" ++ contentType

/-- Modelled from the spec: signed-GET issuance against the object store is
an external capability that, per the spec's abstraction, fails exactly when
the underlying object does not exist and otherwise yields a time-limited URL
for the key. -/
def getSignedUrlGet (store : ObjectStore) (key : String) : Option String :=
  match lookupStore store key with
  | some _ => some ("https://signed-get/" ++ key)
  | none => none

/-- Result of the GET /upload-url route: the HTTP response together with the
resulting object store (untouched by this route) and metadata table. -/
structure UploadOutcome where
  response : ApiResponse
  store : ObjectStore
  table : Table
deriving Repr, DecidableEq

/-- GET /upload-url.  `fileId` is the uuidv4() value and `now` the
new Date().toISOString() value, both external inputs.  Mirrors the route:
missing-or-falsy parameters give the "required" 400 (JS `!s` is true for the
empty string), invalid ones the "Invalid" 400; otherwise the handler presigns
a PUT URL, PutItems a pending record, and returns 200. -/
def issueUploadUrl (fileId now : String) (fileName? contentType? : Option String)
    (store : ObjectStore) (table : Table) : UploadOutcome :=
  match fileName?, contentType? with
  | some fileName, some contentType =>
    if fileName = "" ∨ contentType = "" then
      ⟨⟨400, .errorMsg "fileName and contentType are required"⟩, store, table⟩
    else if !isValidFileName fileName || !isValidContentType contentType then
      ⟨⟨400, .errorMsg "Invalid fileName or contentType"⟩, store, table⟩
    else
      let uploadUrl := getSignedUrlPut fileId contentType
      let record : FileRecord :=
        { fileName := fileName, contentType := contentType,
          status := "pending", createdAt := now }
      ⟨⟨200, .uploadOk fileId uploadUrl⟩, store, putTable table fileId record⟩
  | _, _ =>
    ⟨⟨400, .errorMsg "fileName and contentType are required"⟩, store, table⟩

/-- GET /files/{fileId}: presign a GET URL for the object keyed by fileId;
the catch around the presign maps failure to 404.  The route never reads the
metadata table (the `table` parameter is unused, mirroring the source). -/
def issueDownloadUrl (fileId? : Option String) (store : ObjectStore)
    (_table : Table) : ApiResponse :=
  match fileId? with
  | none => ⟨400, .errorMsg "fileId required"⟩
  | some fileId =>
    match getSignedUrlGet store fileId with
    | some url => ⟨200, .downloadOk url⟩
    | none => ⟨404, .errorMsg "File not found"⟩

/-- The derived-artifact key: thumbnails/<fileId>.jpg. -/
def thumbnailKeyOf (fileId : String) : String :=
  "thumbnails/" ++ fileId ++ ".jpg"

/-- GET /files/{fileId}/thumbnail: presign a GET URL for
thumbnails/<fileId>.jpg; the catch maps failure to 404.  Never reads the
metadata table. -/
def issueThumbnailUrl (fileId? : Option String) (store : ObjectStore)
    (_table : Table) : ApiResponse :=
  match fileId? with
  | none => ⟨400, .errorMsg "fileId is required"⟩
  | some fileId =>
    match getSignedUrlGet store (thumbnailKeyOf fileId) with
    | some url => ⟨200, .thumbnailOk url⟩
    | none => ⟨404, .errorMsg "Thumbnail not found"⟩

/-- Result of DELETE /files/{fileId}. -/
structure DeleteOutcome where
  response : ApiResponse
  store : ObjectStore
  table : Table
deriving Repr, DecidableEq

/-- DELETE /files/{fileId}: unconditional DeleteObject then DeleteItem. -/
def deleteFile (fileId? : Option String) (store : ObjectStore)
    (table : Table) : DeleteOutcome :=
  match fileId? with
  | none => ⟨⟨400, .errorMsg "fileId required"⟩, store, table⟩
  | some fileId =>
    ⟨⟨200, .messageOk "File deleted"⟩, deleteStore store fileId,
      deleteTable table fileId⟩

/-! ## Metadata updater (lambda/metadata-updater/handler.ts)

The source file carries two variants of the handler.  Variant 1's
UpdateExpression is "SET #status = :status, fileSize = :size,
uploadedAt = :uploadedAt" (it computes the declared content type but never
writes it); variant 2 additionally writes contentType = :contentType.
Both guard with ConditionExpression "attribute_exists(fileId)". -/

/-- One notification record of the S3 event: object key, object size, and the
optional declared content type of the payload. -/
structure S3EventRecord where
  key : String
  size : Nat
  contentType : Option String := none
deriving Repr, DecidableEq

/-- String.trim of JavaScript, over the character list: strip whitespace
from both ends. -/
def trimString (s : String) : String :=
  String.mk (((s.toList.dropWhile Char.isWhitespace).reverse.dropWhile
    Char.isWhitespace).reverse)

/-- getContentTypeFromRecord: the trimmed payload content type when it is a
present, non-blank string; the generic binary type otherwise. -/
def getContentTypeFromRecord (record : S3EventRecord) : String :=
  match record.contentType with
  | some ct => if trimString ct ≠ "" then trimString ct
               else "application/octet-stream"
  | none => "application/octet-stream"

/-- The only DynamoDB fault the embedding distinguishes: the
ConditionExpression did not hold. -/
inductive DynamoError where
  | conditionalCheckFailed
deriving Repr, DecidableEq

/-- UpdateItem with ConditionExpression "attribute_exists(fileId)": apply the
update to the existing row, or fail when no row has the key. -/
def updateItemIfExists (table : Table) (key : String)
    (f : FileRecord → FileRecord) : Except DynamoError Table :=
  match lookupTable table key with
  | some r => .ok (putTable table key (f r))
  | none => .error .conditionalCheckFailed

/-- The field writes of variant 1's UpdateExpression: status, fileSize,
uploadedAt (contentType is computed by the handler but not written). -/
def applyCompletedUpdateV1 (now : String) (size : Nat) (r : FileRecord) :
    FileRecord :=
  { r with status := "completed", fileSize := some size,
           uploadedAt := some now }

/-- The field writes of variant 2's UpdateExpression: status, fileSize,
contentType, uploadedAt. -/
def applyCompletedUpdateV2 (now contentType : String) (size : Nat)
    (r : FileRecord) : FileRecord :=
  { r with status := "completed", fileSize := some size,
           contentType := contentType, uploadedAt := some now }

/-- Processing of one notification record by variant 1: the conditional
update, with the per-record catch swallowing the failure (log only). -/
def onObjectWrittenV1 (now : String) (record : S3EventRecord)
    (table : Table) : Table :=
  match updateItemIfExists table record.key
      (applyCompletedUpdateV1 now record.size) with
  | .ok t => t
  | .error _ => table

/-- Processing of one notification record by variant 2. -/
def onObjectWrittenV2 (now : String) (record : S3EventRecord)
    (table : Table) : Table :=
  match updateItemIfExists table record.key
      (applyCompletedUpdateV2 now (getContentTypeFromRecord record)
        record.size) with
  | .ok t => t
  | .error _ => table

/-- The variant-1 handler over the record batch (for const record of
event.Records).  `times i` is the new Date().toISOString() observed while
processing the i-th record; `i` is the index of the first record of `rs`. -/
def metadataUpdaterHandlerV1 (times : Nat → String) :
    Nat → List S3EventRecord → Table → Table
  | _, [], table => table
  | i, record :: rs, table =>
    metadataUpdaterHandlerV1 times (i + 1) rs
      (onObjectWrittenV1 (times i) record table)

/-- The variant-2 handler over the record batch. -/
def metadataUpdaterHandlerV2 (times : Nat → String) :
    Nat → List S3EventRecord → Table → Table
  | _, [], table => table
  | i, record :: rs, table =>
    metadataUpdaterHandlerV2 times (i + 1) rs
      (onObjectWrittenV2 (times i) record table)

/-! ## Media converter (the EventBridge "Object Created" handler) -/

/-- Value of a hexadecimal digit character (0-9, A-F, a-f by code point). -/
def hexDigitVal? (c : Char) : Option Nat :=
  let n := c.toNat
  if 48 ≤ n ∧ n ≤ 57 then some (n - 48)
  else if 65 ≤ n ∧ n ≤ 70 then some (n - 55)
  else if 97 ≤ n ∧ n ≤ 102 then some (n - 87)
  else none

/-- UTF-8 encoding of one character (1 to 4 bytes). -/
def charUtf8Bytes (c : Char) : List Nat :=
  let n := c.toNat
  if n < 0x80 then [n]
  else if n < 0x800 then [0xC0 + n / 64, 0x80 + n % 64]
  else if n < 0x10000 then
    [0xE0 + n / 4096, 0x80 + n / 64 % 64, 0x80 + n % 64]
  else
    [0xF0 + n / 262144, 0x80 + n / 4096 % 64, 0x80 + n / 64 % 64,
     0x80 + n % 64]

/-- Percent-unescaping phase of decodeURIComponent: each %hh contributes the
byte hh (failing unless two hexadecimal digits follow the percent sign);
every other character contributes its UTF-8 bytes. -/
def percentUnescape : List Char → Option (List Nat)
  | [] => some []
  | '%' :: rest =>
    match rest with
    | h1 :: h2 :: rest2 =>
      match hexDigitVal? h1, hexDigitVal? h2, percentUnescape rest2 with
      | some a, some b, some tail => some ((16 * a + b) :: tail)
      | _, _, _ => none
    | _ => none
  | c :: rest =>
    match percentUnescape rest with
    | some tail => some (charUtf8Bytes c ++ tail)
    | none => none

/-- Whether a byte is a UTF-8 continuation byte (10xxxxxx). -/
def isContByte (b : Nat) : Bool :=
  decide (0x80 ≤ b) && decide (b < 0xC0)

/-- Strict UTF-8 decoding of a byte list: rejects malformed sequences,
overlong encodings, surrogate code points and code points above 0x10FFFF. -/
def utf8DecodeBytes : List Nat → Option (List Char)
  | [] => some []
  | b :: rest =>
    if b < 0x80 then
      match utf8DecodeBytes rest with
      | some cs => some (Char.ofNat b :: cs)
      | none => none
    else if 0xC2 ≤ b ∧ b < 0xE0 then
      match rest with
      | b1 :: rest1 =>
        if isContByte b1 then
          match utf8DecodeBytes rest1 with
          | some cs => some (Char.ofNat ((b - 0xC0) * 64 + (b1 - 0x80)) :: cs)
          | none => none
        else none
      | [] => none
    else if 0xE0 ≤ b ∧ b < 0xF0 then
      match rest with
      | b1 :: b2 :: rest2 =>
        if isContByte b1 && isContByte b2 then
          let cp := (b - 0xE0) * 4096 + (b1 - 0x80) * 64 + (b2 - 0x80)
          if cp < 0x800 ∨ (0xD800 ≤ cp ∧ cp ≤ 0xDFFF) then none
          else
            match utf8DecodeBytes rest2 with
            | some cs => some (Char.ofNat cp :: cs)
            | none => none
        else none
      | _ => none
    else if 0xF0 ≤ b ∧ b < 0xF5 then
      match rest with
      | b1 :: b2 :: b3 :: rest3 =>
        if isContByte b1 && isContByte b2 && isContByte b3 then
          let cp := (b - 0xF0) * 262144 + (b1 - 0x80) * 4096
                      + (b2 - 0x80) * 64 + (b3 - 0x80)
          if cp < 0x10000 ∨ 0x110000 ≤ cp then none
          else
            match utf8DecodeBytes rest3 with
            | some cs => some (Char.ofNat cp :: cs)
            | none => none
        else none
      | _ => none
    else none

/-- Modelled from the spec: the JavaScript decodeURIComponent builtin —
percent-unescape to bytes and UTF-8-decode them; a malformed escape or an
invalid byte sequence throws a URIError (here: none). -/
def decodeURIComponentModel (s : String) : Option String :=
  match percentUnescape s.toList with
  | some bytes =>
    match utf8DecodeBytes bytes with
    | some cs => some (String.mk cs)
    | none => none
  | none => none

/-- The converter's key normalization:
decodeURIComponent(detail.object.key.replace(regex plus-sign, " ")). -/
def decodeS3Key (raw : String) : Option String :=
  decodeURIComponentModel
    (String.mk (raw.toList.map (fun c => if c = '+' then ' ' else c)))

/-- THUMBNAIL_PREFIX (environment variable with default "thumbnails/"). -/
def THUMBNAIL_PREFIX : String := "thumbnails/"

/-- String.startsWith of JavaScript, over the character lists. -/
def strStartsWith (s p : String) : Bool :=
  p.toList.isPrefixOf s.toList

/-- External collaborators of the converter, as oracles: HeadObject (none
means the call throws, some ct means it succeeds with declared Content-Type
ct, the code coercing an absent Content-Type to ""); GetObject plus
streamToBuffer (none means a throw); the sharp resize/JPEG pipeline; ffmpeg
frame extraction via execAsync (none means the exec fails, in which case no
output frame file is produced); PutObject success per key; and Date.now()
for the scratch output file name. -/
structure ConvEnv where
  head : String → Option String
  getBody : String → Option (List Nat)
  sharpJpeg : List Nat → Option (List Nat)
  ffmpegFrame : List Nat → Option (List Nat)
  putOk : String → Bool
  nowMs : Nat

/-- How one converter invocation ended.  propagated: an exception escaped
the handler (only the key decode runs outside the try/catch). -/
inductive ConvOutcome where
  | propagated
  | skippedThumbnail
  | skippedNonMedia
  | stored (thumbnailKey : String)
  | caught
deriving Repr, DecidableEq

/-- Observable behaviour of one converter invocation: the outcome, the keys
of the metadata-only head reads, full-object reads and thumbnail writes it
performed, the scratch files it created under /tmp, and the scratch files
still on disk when the invocation ended. -/
structure ConvResult where
  outcome : ConvOutcome
  headKeys : List String := []
  getKeys : List String := []
  putKeys : List String := []
  tmpCreated : List String := []
  tmpFiles : List String := []
deriving Repr, DecidableEq

/-- The scratch input path of the video branch:
"/tmp/" ++ key.replace(/ slash /g, "_"). -/
def videoInputPath (key : String) : String :=
  "/tmp/" ++ String.mk (key.toList.map (fun c => if c = '/' then '_' else c))

/-- The scratch output path of the video branch:
"/tmp/thumb_" ++ Date.now() ++ ".jpg". -/
def videoOutputPath (nowMs : Nat) : String :=
  "/tmp/thumb_" ++ toString nowMs ++ ".jpg"

/-- Upload of the produced thumbnail: PutObject at
THUMBNAIL_PREFIX ++ key ++ ".jpg" with content type image/jpeg; a put
failure is caught by the handler's catch. -/
def convFinishPut (env : ConvEnv) (key : String) (tmpCreated : List String) :
    ConvResult :=
  let thumbnailKey := THUMBNAIL_PREFIX ++ key ++ ".jpg"
  if env.putOk thumbnailKey then
    { outcome := .stored thumbnailKey, headKeys := [key], getKeys := [key],
      putKeys := [thumbnailKey], tmpCreated := tmpCreated }
  else
    { outcome := .caught, headKeys := [key], getKeys := [key],
      putKeys := [thumbnailKey], tmpCreated := tmpCreated }

/-- The converter handler.  The key decode runs before the try block, so a
decode failure propagates to the dispatcher; inside the try, the thumbnail
prefix guard, the head probe with the image/video filter, the download, the
image (sharp) or video (scratch file + ffmpeg + read + unlink both) branch,
and the thumbnail upload, with the catch turning any throw into a log. -/
def onObjectCreated (env : ConvEnv) (rawKey : String) : ConvResult :=
  match decodeS3Key rawKey with
  | none => { outcome := .propagated }
  | some key =>
    if strStartsWith key THUMBNAIL_PREFIX then
      { outcome := .skippedThumbnail }
    else
      match env.head key with
      | none => { outcome := .caught, headKeys := [key] }
      | some contentType =>
        let isImage := strStartsWith contentType "image/"
        let isVideo := strStartsWith contentType "video/"
        if !isImage && !isVideo then
          { outcome := .skippedNonMedia, headKeys := [key] }
        else
          match env.getBody key with
          | none => { outcome := .caught, headKeys := [key], getKeys := [key] }
          | some buffer =>
            if isImage then
              match env.sharpJpeg buffer with
              | none =>
                { outcome := .caught, headKeys := [key], getKeys := [key] }
              | some _thumbnailBuffer => convFinishPut env key []
            else if isVideo then
              let inputPath := videoInputPath key
              match env.ffmpegFrame buffer with
              | none =>
                -- execAsync threw: the catch only logs; the persisted input
                -- file is never unlinked (the output frame was not produced)
                { outcome := .caught, headKeys := [key], getKeys := [key],
                  tmpCreated := [inputPath], tmpFiles := [inputPath] }
              | some _thumbnailBuffer =>
                -- fs.readFile(outputPath) succeeds, then both scratch files
                -- are unlinked before the upload
                convFinishPut env key
                  [inputPath, videoOutputPath env.nowMs]
            else
              { outcome := .skippedNonMedia, headKeys := [key],
                getKeys := [key] }

/-! ## The system as a transition system

Operations that touch the metadata table: GET /upload-url (record creation
with a uuidv4 fileId), the metadata updater's per-record conditional update
(variant 2), and DELETE /files/{fileId}.  The `used` component collects
every fileId uuidv4 has ever produced; freshness of uuid values is the
spec's assumption about the external generator. -/

/-- Global state: the bucket, the table, and the set of uuidv4 values already
produced. -/
structure SysState where
  store : ObjectStore
  table : Table
  used : List String
deriving Repr, DecidableEq

/-- One operation of the system.  Timestamps and generated identifiers are
recorded in the operation. -/
inductive SysOp where
  | upload (fileId now fileName contentType : String)
  | objectWritten (now : String) (record : S3EventRecord)
  | deleteReq (fileId : String)
deriving Repr, DecidableEq

/-- Apply one operation to the state. -/
def applySysOp (s : SysState) : SysOp → SysState
  | .upload fileId now fileName contentType =>
    let out := issueUploadUrl fileId now (some fileName) (some contentType)
      s.store s.table
    { store := out.store, table := out.table, used := fileId :: s.used }
  | .objectWritten now record =>
    { s with table := onObjectWrittenV2 now record s.table }
  | .deleteReq fileId =>
    let out := deleteFile (some fileId) s.store s.table
    { store := out.store, table := out.table, used := s.used }

/-- Run a sequence of operations. -/
def runSysOps (s : SysState) : List SysOp → SysState
  | [] => s
  | op :: ops => runSysOps (applySysOp s op) ops

/-- The uuidv4 freshness assumption along a run: every upload's fileId is a
value the generator has never produced before. -/
def freshIds (s : SysState) : List SysOp → Bool
  | [] => true
  | op :: ops =>
    (match op with
     | .upload fileId _ _ _ => !(s.used.contains fileId)
     | _ => true) && freshIds (applySysOp s op) ops

/-- The initial state: empty bucket, empty table, no identifiers issued. -/
def initSysState : SysState := ⟨[], [], []⟩

/-! ## Helper lemmas -/

theorem putTable_putTable (t : Table) (key : String) (r1 r2 : FileRecord) :
    putTable (putTable t key r1) key r2 = putTable t key r2 := by
  induction t with
  | nil => simp [putTable]
  | cons hd tl ih =>
    obtain ⟨k0, r0⟩ := hd
    by_cases h0 : k0 = key
    · subst h0; simp [putTable]
    · simp [putTable, h0, ih]

theorem metadataUpdaterHandlerV1_no_create (times : Nat → String)
    (rs : List S3EventRecord) :
    ∀ (i : Nat) (table : Table) (k : String), lookupTable table k = none →
      lookupTable (metadataUpdaterHandlerV1 times i rs table) k = none := by
  induction rs with
  | nil =>
    intro i table k h
    simpa [metadataUpdaterHandlerV1] using h
  | cons r rs ih =>
    intro i table k h
    simp only [metadataUpdaterHandlerV1]
    apply ih
    unfold onObjectWrittenV1 updateItemIfExists
    cases hr : lookupTable table r.key with
    | none => simpa using h
    | some r0 =>
      simp only [lookupTable_putTable]
      by_cases hk : r.key = k
      · subst hk
        rw [h] at hr
        cases hr
      · simp [hk, h]

/-! ## Claim theorems -/

/-- C1: when the object keyed by the fileId does not exist in the store,
GET /files/{fileId} responds 404 File not found, and when no object exists
at thumbnails/<fileId>.jpg, GET /files/{fileId}/thumbnail responds 404
Thumbnail not found; both responses are the same whatever the metadata
table holds. -/
theorem download_and_thumbnail_notFound
    (fileId : String) (store : ObjectStore) (t1 t2 : Table) :
    (lookupStore store fileId = none →
      issueDownloadUrl (some fileId) store t1 =
        ⟨404, .errorMsg "File not found"⟩) ∧
    (lookupStore store (thumbnailKeyOf fileId) = none →
      issueThumbnailUrl (some fileId) store t1 =
        ⟨404, .errorMsg "Thumbnail not found"⟩) ∧
    issueDownloadUrl (some fileId) store t1 =
      issueDownloadUrl (some fileId) store t2 ∧
    issueThumbnailUrl (some fileId) store t1 =
      issueThumbnailUrl (some fileId) store t2 := by
  refine ⟨?_, ?_, rfl, rfl⟩
  · intro hobj
    simp [issueDownloadUrl, getSignedUrlGet, hobj]
  · intro hthumb
    simp [issueThumbnailUrl, getSignedUrlGet, hthumb]

/-- Witness for C1 in the two cases the claim singles out: the thumbnail is
missing while the original object "f1" exists (conversion not yet run), and
the object "f2" is missing while its orphaned thumbnail still exists. -/
theorem download_and_thumbnail_notFound_witness :
    issueThumbnailUrl (some "f1") [("f1", ⟨"image/png", [1]⟩)] [] =
      ⟨404, .errorMsg "Thumbnail not found"⟩ ∧
    issueDownloadUrl (some "f2")
        [("thumbnails/f2.jpg", ⟨"image/jpeg", [2]⟩)] [] =
      ⟨404, .errorMsg "File not found"⟩ :=
  ⟨(download_and_thumbnail_notFound "f1" [("f1", ⟨"image/png", [1]⟩)] []
      [("f1", ⟨"a.png", "image/png", "pending", "t0", none, none⟩)]).2.1
    (by decide),
   (download_and_thumbnail_notFound "f2"
      [("thumbnails/f2.jpg", ⟨"image/jpeg", [2]⟩)] [] []).1 (by decide)⟩

/-- C4 (amended): onObjectWritten computes contentType as the trimmed
payload value when present and non-blank, else as
"application/octet-stream"; given an existing record at the object key,
variant 2's conditional update sets status, fileSize, contentType and
uploadedAt on it, while variant 1's conditional update sets status,
fileSize and uploadedAt but does not write contentType. -/
theorem onObjectWritten_contentType_and_update
    (now : String) (record : S3EventRecord) (table : Table) (r : FileRecord)
    (h : lookupTable table record.key = some r) :
    (∀ ct, record.contentType = some ct → trimString ct ≠ "" →
      getContentTypeFromRecord record = trimString ct) ∧
    (∀ ct, record.contentType = some ct → trimString ct = "" →
      getContentTypeFromRecord record = "application/octet-stream") ∧
    (record.contentType = none →
      getContentTypeFromRecord record = "application/octet-stream") ∧
    lookupTable (onObjectWrittenV2 now record table) record.key =
      some { r with
             status := "completed", fileSize := some record.size,
             contentType := getContentTypeFromRecord record,
             uploadedAt := some now } ∧
    lookupTable (onObjectWrittenV1 now record table) record.key =
      some { r with
             status := "completed", fileSize := some record.size,
             uploadedAt := some now } := by
  refine ⟨?_, ?_, ?_, ?_, ?_⟩
  · intro ct hct hne
    simp [getContentTypeFromRecord, hct, hne]
  · intro ct hct he
    simp [getContentTypeFromRecord, hct, he]
  · intro hct
    simp [getContentTypeFromRecord, hct]
  · simp [onObjectWrittenV2, updateItemIfExists, h, lookupTable_putTable,
      applyCompletedUpdateV2]
  · simp [onObjectWrittenV1, updateItemIfExists, h, lookupTable_putTable,
      applyCompletedUpdateV1]

/-- Witness for C4's amended theorem: a pending record at key "k1" and a
notification declaring "text/plain". -/
theorem onObjectWritten_contentType_and_update_witness :
    lookupTable
      (onObjectWrittenV2 "t1" ⟨"k1", 7, some "text/plain"⟩
        [("k1", ⟨"a.bin", "application/octet-stream", "pending", "t0",
          none, none⟩)]) "k1" =
      some ⟨"a.bin", "text/plain", "completed", "t0", some "t1", some 7⟩ ∧
    lookupTable
      (onObjectWrittenV1 "t1" ⟨"k1", 7, some "text/plain"⟩
        [("k1", ⟨"a.bin", "application/octet-stream", "pending", "t0",
          none, none⟩)]) "k1" =
      some ⟨"a.bin", "application/octet-stream", "completed", "t0",
        some "t1", some 7⟩ :=
  have h := onObjectWritten_contentType_and_update "t1"
    ⟨"k1", 7, some "text/plain"⟩
    [("k1", ⟨"a.bin", "application/octet-stream", "pending", "t0",
      none, none⟩)]
    ⟨"a.bin", "application/octet-stream", "pending", "t0", none, none⟩
    (by decide)
  ⟨h.2.2.2.1, h.2.2.2.2⟩

/-- Counterexample to C4 as stated: variant 1 of the metadata updater
(present in the source file) computes the declared content type
"text/plain" but its UpdateExpression does not write it — after the update
the record's contentType is still its old value. -/
theorem contentType_not_written_by_variant1 :
    lookupTable
      (onObjectWrittenV1 "t1" ⟨"k1", 7, some "text/plain"⟩
        [("k1", ⟨"a.bin", "application/octet-stream", "pending", "t0",
          none, none⟩)]) "k1" =
      some ⟨"a.bin", "application/octet-stream", "completed", "t0",
        some "t1", some 7⟩ ∧
    getContentTypeFromRecord ⟨"k1", 7, some "text/plain"⟩ = "text/plain" ∧
    ("application/octet-stream" : String) ≠ "text/plain" := by
  refine ⟨by decide, by decide, by decide⟩

/-- C5 (amended): re-applying onObjectWritten (variant 2) with the same key
and size to a completed record overwrites every field with the same value
except uploadedAt, which is set to the second call's current time; when the
two timestamps coincide the table is unchanged, and no other key is
affected. -/
theorem onObjectWritten_idempotent_up_to_uploadedAt
    (now1 now2 : String) (record : S3EventRecord) (table : Table)
    (r : FileRecord) (h : lookupTable table record.key = some r) :
    ∃ r1, lookupTable (onObjectWrittenV2 now1 record table) record.key
        = some r1 ∧
      r1.status = "completed" ∧
      lookupTable
          (onObjectWrittenV2 now2 record (onObjectWrittenV2 now1 record table))
          record.key
        = some { r1 with uploadedAt := some now2 } ∧
      (now1 = now2 →
        onObjectWrittenV2 now2 record (onObjectWrittenV2 now1 record table)
          = onObjectWrittenV2 now1 record table) ∧
      (∀ k, k ≠ record.key →
        lookupTable
            (onObjectWrittenV2 now2 record
              (onObjectWrittenV2 now1 record table)) k
          = lookupTable (onObjectWrittenV2 now1 record table) k) := by
  have hT : onObjectWrittenV2 now1 record table
      = putTable table record.key
          (applyCompletedUpdateV2 now1 (getContentTypeFromRecord record)
            record.size r) := by
    simp [onObjectWrittenV2, updateItemIfExists, h]
  have h1 : lookupTable (onObjectWrittenV2 now1 record table) record.key
      = some (applyCompletedUpdateV2 now1 (getContentTypeFromRecord record)
          record.size r) := by
    rw [hT, lookupTable_putTable, if_pos rfl]
  have hT2 : onObjectWrittenV2 now2 record (onObjectWrittenV2 now1 record table)
      = putTable table record.key
          (applyCompletedUpdateV2 now2 (getContentTypeFromRecord record)
            record.size
            (applyCompletedUpdateV2 now1 (getContentTypeFromRecord record)
              record.size r)) := by
    rw [hT]
    simp [onObjectWrittenV2, updateItemIfExists, lookupTable_putTable,
      putTable_putTable]
  refine ⟨_, h1, rfl, ?_, ?_, ?_⟩
  · rw [hT2, lookupTable_putTable, if_pos rfl]
    rfl
  · intro hnow
    subst hnow
    rw [hT2, hT]
    rfl
  · intro k hk
    have hk2 : ¬ record.key = k := fun h2 => hk h2.symm
    rw [hT2, hT, lookupTable_putTable, lookupTable_putTable, if_neg hk2,
      if_neg hk2]

/-- Witness for C5's amended theorem: a pending record at "k1", two
notifications at times "t1" and "t2". -/
theorem onObjectWritten_idempotent_up_to_uploadedAt_witness :
    ∃ r1, lookupTable
        (onObjectWrittenV2 "t1" ⟨"k1", 7, some "text/plain"⟩
          [("k1", ⟨"a.txt", "text/plain", "pending", "t0", none, none⟩)])
        "k1" = some r1 ∧
      r1.status = "completed" ∧
      lookupTable
        (onObjectWrittenV2 "t2" ⟨"k1", 7, some "text/plain"⟩
          (onObjectWrittenV2 "t1" ⟨"k1", 7, some "text/plain"⟩
            [("k1", ⟨"a.txt", "text/plain", "pending", "t0", none, none⟩)]))
        "k1" = some { r1 with uploadedAt := some "t2" } :=
  have h := onObjectWritten_idempotent_up_to_uploadedAt "t1" "t2"
    ⟨"k1", 7, some "text/plain"⟩
    [("k1", ⟨"a.txt", "text/plain", "pending", "t0", none, none⟩)]
    ⟨"a.txt", "text/plain", "pending", "t0", none, none⟩ (by decide)
  ⟨h.choose, h.choose_spec.1, h.choose_spec.2.1, h.choose_spec.2.2.1⟩

/-- Counterexample to C5 as stated: after the record is completed by a
first notification at time "t1", re-applying the same notification at time
"t2" changes the record — uploadedAt moves from "t1" to "t2", so the
second call does not leave all fields unchanged. -/
theorem second_notification_changes_uploadedAt :
    lookupTable
      (onObjectWrittenV2 "t1" ⟨"k1", 7, some "text/plain"⟩
        [("k1", ⟨"a.txt", "text/plain", "pending", "t0", none, none⟩)])
      "k1" =
      some ⟨"a.txt", "text/plain", "completed", "t0", some "t1", some 7⟩ ∧
    lookupTable
      (onObjectWrittenV2 "t2" ⟨"k1", 7, some "text/plain"⟩
        (onObjectWrittenV2 "t1" ⟨"k1", 7, some "text/plain"⟩
          [("k1", ⟨"a.txt", "text/plain", "pending", "t0", none, none⟩)]))
      "k1" =
      some ⟨"a.txt", "text/plain", "completed", "t0", some "t2", some 7⟩ ∧
    some (⟨"a.txt", "text/plain", "completed", "t0", some "t2", some 7⟩ :
        FileRecord) ≠
      some (⟨"a.txt", "text/plain", "completed", "t0", some "t1", some 7⟩ :
        FileRecord) := by
  refine ⟨by decide, by decide, by decide⟩

/-- C6: a notification whose key has no matching record makes the
conditional update fail with the conditional-check (precondition) error,
the per-record catch swallows it leaving the table untouched, no record is
created for that key, and the rest of the batch is processed exactly as if
the failing record were absent. -/
theorem missing_record_notification_swallowed
    (times : Nat → String) (i : Nat) (record : S3EventRecord)
    (rest : List S3EventRecord) (table : Table)
    (h : lookupTable table record.key = none) :
    updateItemIfExists table record.key
        (applyCompletedUpdateV1 (times i) record.size)
      = .error .conditionalCheckFailed ∧
    metadataUpdaterHandlerV1 times i (record :: rest) table
      = metadataUpdaterHandlerV1 times (i + 1) rest table ∧
    ∀ k, lookupTable table k = none →
      lookupTable (metadataUpdaterHandlerV1 times i (record :: rest) table) k
        = none := by
  have hswallow : onObjectWrittenV1 (times i) record table = table := by
    simp [onObjectWrittenV1, updateItemIfExists, h]
  refine ⟨?_, ?_, ?_⟩
  · simp [updateItemIfExists, h]
  · simp only [metadataUpdaterHandlerV1, hswallow]
  · intro k hk
    simp only [metadataUpdaterHandlerV1, hswallow]
    exact metadataUpdaterHandlerV1_no_create times rest (i + 1) table k hk

/-- Witness for C6: a two-record batch whose first record's key "nokey" has
no row; the second record "k2" is still completed. -/
theorem missing_record_notification_swallowed_witness :
    metadataUpdaterHandlerV1 (fun _ => "t1") 0
        [⟨"nokey", 3, none⟩, ⟨"k2", 5, some "text/plain"⟩]
        [("k2", ⟨"b.txt", "text/plain", "pending", "t0", none, none⟩)]
      = metadataUpdaterHandlerV1 (fun _ => "t1") 1
        [⟨"k2", 5, some "text/plain"⟩]
        [("k2", ⟨"b.txt", "text/plain", "pending", "t0", none, none⟩)] ∧
    lookupTable
      (metadataUpdaterHandlerV1 (fun _ => "t1") 0
        [⟨"nokey", 3, none⟩, ⟨"k2", 5, some "text/plain"⟩]
        [("k2", ⟨"b.txt", "text/plain", "pending", "t0", none, none⟩)])
      "nokey" = none :=
  have h := missing_record_notification_swallowed (fun _ => "t1") 0
    ⟨"nokey", 3, none⟩ [⟨"k2", 5, some "text/plain"⟩]
    [("k2", ⟨"b.txt", "text/plain", "pending", "t0", none, none⟩)]
    (by decide)
  ⟨h.2.1, h.2.2 "nokey" (by decide)⟩

theorem isValidFileName_iff (fn : String) :
    isValidFileName fn = true ↔
      0 < fn.length ∧ fn.length ≤ 255 ∧ '/' ∉ fn.toList := by
  simp [isValidFileName, and_assoc]

theorem isValidContentType_iff (ct : String) :
    isValidContentType ct = true ↔
      (0 < ct.length ∧ ∀ c ∈ ct.toList, isContentTypeChar c = true)
        ∧ ct.length ≤ 100 := by
  simp [isValidContentType, List.all_eq_true]

/-- C7: GET /upload-url responds 400 exactly when a parameter is missing,
the fileName is empty, longer than 255 characters or contains a path
separator, or the contentType is empty, longer than 100 characters or has a
character outside the token class; on a non-400 response the handler
returns the generated fileId with the presigned PUT URL, a pending record
with that fileId exists immediately after, the object store is untouched,
and every other key of the table is untouched (the fileId itself being a
fresh uuidv4 value, assumed absent from the table). -/
theorem issueUploadUrl_validation_and_success
    (fileId now : String) (fileName? contentType? : Option String)
    (store : ObjectStore) (table : Table)
    (hfresh : lookupTable table fileId = none) :
    (fileName? = none ∨ contentType? = none →
      (issueUploadUrl fileId now fileName? contentType? store table).response
        = ⟨400, .errorMsg "fileName and contentType are required"⟩) ∧
    (∀ fn ct, fileName? = some fn → contentType? = some ct →
      ((issueUploadUrl fileId now fileName? contentType? store
          table).response.statusCode = 400 ↔
        fn.length = 0 ∨ 255 < fn.length ∨ '/' ∈ fn.toList ∨
        ct.length = 0 ∨ 100 < ct.length ∨
        ¬ ∀ c ∈ ct.toList, isContentTypeChar c = true)) ∧
    (∀ fn ct, fileName? = some fn → contentType? = some ct →
      (issueUploadUrl fileId now fileName? contentType? store
          table).response.statusCode ≠ 400 →
      issueUploadUrl fileId now fileName? contentType? store table
        = ⟨⟨200, .uploadOk fileId (getSignedUrlPut fileId ct)⟩, store,
            putTable table fileId ⟨fn, ct, "pending", now, none, none⟩⟩ ∧
      lookupTable (issueUploadUrl fileId now fileName? contentType? store
          table).table fileId
        = some ⟨fn, ct, "pending", now, none, none⟩ ∧
      (issueUploadUrl fileId now fileName? contentType? store table).store
        = store ∧
      lookupTable table fileId = none ∧
      ∀ k, k ≠ fileId →
        lookupTable (issueUploadUrl fileId now fileName? contentType? store
            table).table k = lookupTable table k) := by
  refine ⟨?_, ?_, ?_⟩
  · rintro (h | h) <;> subst h
    · cases contentType? <;> rfl
    · cases fileName? <;> rfl
  · intro fn ct hfn hct
    subst hfn; subst hct
    simp only [issueUploadUrl]
    by_cases h1 : fn = "" ∨ ct = ""
    · rw [if_pos h1]
      constructor
      · intro _
        rcases h1 with h | h
        · subst h; left; rfl
        · subst h; right; right; right; left; rfl
      · intro _
        rfl
    · rw [if_neg h1]
      by_cases h2 : (!isValidFileName fn || !isValidContentType ct) = true
      · rw [if_pos h2]
        simp only [Bool.or_eq_true, Bool.not_eq_true'] at h2
        constructor
        · intro _
          rcases h2 with h | h
          · have h3 : ¬ (0 < fn.length ∧ fn.length ≤ 255 ∧
                '/' ∉ fn.toList) := fun hc => by
              rw [(isValidFileName_iff fn).mpr hc] at h
              cases h
            rw [not_and_or, not_and_or] at h3
            rcases h3 with h3 | h3 | h3
            · left; omega
            · right; left; omega
            · right; right; left; exact not_not.mp h3
          · have h3 : ¬ ((0 < ct.length ∧
                ∀ c ∈ ct.toList, isContentTypeChar c = true) ∧
                ct.length ≤ 100) := fun hc => by
              rw [(isValidContentType_iff ct).mpr hc] at h
              cases h
            rw [not_and_or, not_and_or] at h3
            rcases h3 with (h3 | h3) | h3
            · right; right; right; left; omega
            · right; right; right; right; right; exact h3
            · right; right; right; right; left; omega
        · intro _
          rfl
      · rw [if_neg h2]
        have h2f : (!isValidFileName fn || !isValidContentType ct)
            = false := by
          revert h2
          cases (!isValidFileName fn || !isValidContentType ct) <;> simp
        simp only [Bool.or_eq_false_iff, Bool.not_eq_false'] at h2f
        have hfv := (isValidFileName_iff fn).mp h2f.1
        have hcv := (isValidContentType_iff ct).mp h2f.2
        obtain ⟨hf1, hf2, hf3⟩ := hfv
        obtain ⟨⟨hc1, hc2⟩, hc3⟩ := hcv
        constructor
        · intro habs
          simp at habs
        · rintro (hb | hb | hb | hb | hb | hb)
          · exact absurd hb (by omega)
          · exact absurd hb (by omega)
          · exact absurd hb hf3
          · exact absurd hb (by omega)
          · exact absurd hb (by omega)
          · exact absurd hc2 hb
  · intro fn ct hfn hct h400
    subst hfn; subst hct
    simp only [issueUploadUrl] at h400 ⊢
    by_cases h1 : fn = "" ∨ ct = ""
    · rw [if_pos h1] at h400
      simp at h400
    · rw [if_neg h1] at h400 ⊢
      by_cases h2 : (!isValidFileName fn || !isValidContentType ct) = true
      · rw [if_pos h2] at h400
        simp at h400
      · rw [if_neg h2]
        refine ⟨rfl, ?_, rfl, hfresh, ?_⟩
        · simp [lookupTable_putTable]
        · intro k hk
          have hk2 : ¬ fileId = k := fun h2 => hk h2.symm
          simp [lookupTable_putTable, hk2]

/-- Witness for C7: a valid call with fileName "report.pdf" and contentType
"application/pdf" against the empty store and table. -/
theorem issueUploadUrl_validation_and_success_witness :
    issueUploadUrl "id-1" "t0" (some "report.pdf") (some "application/pdf")
        [] []
      = ⟨⟨200, .uploadOk "id-1" (getSignedUrlPut "id-1" "application/pdf")⟩,
          [], [("id-1", ⟨"report.pdf", "application/pdf", "pending", "t0",
            none, none⟩)]⟩ ∧
    lookupTable (issueUploadUrl "id-1" "t0" (some "report.pdf")
        (some "application/pdf") [] []).table "id-1"
      = some ⟨"report.pdf", "application/pdf", "pending", "t0", none,
          none⟩ :=
  have h := issueUploadUrl_validation_and_success "id-1" "t0"
    (some "report.pdf") (some "application/pdf") [] [] (by decide)
  have hs := h.2.2 "report.pdf" "application/pdf" rfl rfl (by decide)
  ⟨hs.1, hs.2.1⟩

/-- A converter environment in which the ffmpeg invocation fails while every
collaborator before it succeeds on a video object. -/
def ffmpegFailEnv : ConvEnv :=
  ⟨fun _ => some "video/mp4", fun _ => some [1, 2, 3], fun _ => some [9],
   fun _ => none, fun _ => true, 0⟩

/-- A converter environment in which every collaborator succeeds on a video
object. -/
def allOkEnv : ConvEnv :=
  ⟨fun _ => some "video/mp4", fun _ => some [1, 2, 3], fun _ => some [9],
   fun _ => some [7], fun _ => true, 0⟩

/-- A converter environment whose objects carry a non-media content type. -/
def pdfEnv : ConvEnv :=
  ⟨fun _ => some "application/pdf", fun _ => some [1], fun _ => some [2],
   fun _ => some [3], fun _ => true, 0⟩

theorem onObjectCreated_shape (env : ConvEnv) (raw key : String)
    (hdec : decodeS3Key raw = some key) :
    (onObjectCreated env raw).outcome ≠ ConvOutcome.propagated ∧
    ((onObjectCreated env raw).headKeys = []
      ∨ (onObjectCreated env raw).headKeys = [key]) ∧
    ((onObjectCreated env raw).getKeys = []
      ∨ (onObjectCreated env raw).getKeys = [key]) := by
  simp only [onObjectCreated, hdec]
  by_cases h1 : strStartsWith key THUMBNAIL_PREFIX = true
  · simp [h1]
  · rw [Bool.not_eq_true] at h1
    cases h2 : env.head key with
    | none => simp [h1, h2]
    | some ct =>
      by_cases h3 : strStartsWith ct "image/" = true
      · cases h4 : env.getBody key with
        | none => simp [h1, h2, h3, h4]
        | some buffer =>
          cases h5 : env.sharpJpeg buffer with
          | none => simp [h1, h2, h3, h4, h5]
          | some tb =>
            by_cases h6 : env.putOk (THUMBNAIL_PREFIX ++ key ++ ".jpg") = true
            · simp [h1, h2, h3, h4, h5, h6, convFinishPut]
            · rw [Bool.not_eq_true] at h6
              simp [h1, h2, h3, h4, h5, h6, convFinishPut]
      · rw [Bool.not_eq_true] at h3
        by_cases h7 : strStartsWith ct "video/" = true
        · cases h4 : env.getBody key with
          | none => simp [h1, h2, h3, h7, h4]
          | some buffer =>
            cases h8 : env.ffmpegFrame buffer with
            | none => simp [h1, h2, h3, h7, h4, h8]
            | some tb =>
              by_cases h6 : env.putOk (THUMBNAIL_PREFIX ++ key ++ ".jpg")
                  = true
              · simp [h1, h2, h3, h7, h4, h8, h6, convFinishPut]
              · rw [Bool.not_eq_true] at h6
                simp [h1, h2, h3, h7, h4, h8, h6, convFinishPut]
        · rw [Bool.not_eq_true] at h7
          simp [h1, h2, h3, h7]

/-- C2 (amended): in the video branch, both scratch files (the persisted
input and the extracted frame) are created and then deleted before the
invocation ends whenever frame extraction and the readback succeed — even
if the subsequent thumbnail upload fails; but when frame extraction fails
after the input file was persisted, the catch block only logs and the
input scratch file is left on disk. -/
theorem video_scratch_cleanup
    (env : ConvEnv) (rawKey key ct : String) (buffer : List Nat)
    (hdec : decodeS3Key rawKey = some key)
    (hpre : strStartsWith key THUMBNAIL_PREFIX = false)
    (hhead : env.head key = some ct)
    (himg : strStartsWith ct "image/" = false)
    (hvid : strStartsWith ct "video/" = true)
    (hget : env.getBody key = some buffer) :
    (∀ tb, env.ffmpegFrame buffer = some tb →
      (onObjectCreated env rawKey).tmpCreated
          = [videoInputPath key, videoOutputPath env.nowMs] ∧
      (onObjectCreated env rawKey).tmpFiles = []) ∧
    (env.ffmpegFrame buffer = none →
      (onObjectCreated env rawKey).outcome = ConvOutcome.caught ∧
      (onObjectCreated env rawKey).tmpCreated = [videoInputPath key] ∧
      (onObjectCreated env rawKey).tmpFiles = [videoInputPath key]) := by
  constructor
  · intro tb hff
    by_cases h6 : env.putOk (THUMBNAIL_PREFIX ++ key ++ ".jpg") = true
    · simp [onObjectCreated, hdec, hpre, hhead, himg, hvid, hget, hff, h6,
        convFinishPut]
    · rw [Bool.not_eq_true] at h6
      simp [onObjectCreated, hdec, hpre, hhead, himg, hvid, hget, hff, h6,
        convFinishPut]
  · intro hff
    simp [onObjectCreated, hdec, hpre, hhead, himg, hvid, hget, hff]

/-- Witness for C2's amended theorem: uploading "movie.mp4" with a
succeeding ffmpeg creates and then removes both scratch files. -/
theorem video_scratch_cleanup_witness :
    (onObjectCreated allOkEnv "movie.mp4").tmpCreated
        = [videoInputPath "movie.mp4", videoOutputPath 0] ∧
    (onObjectCreated allOkEnv "movie.mp4").tmpFiles = [] :=
  have h := video_scratch_cleanup allOkEnv "movie.mp4" "movie.mp4"
    "video/mp4" [1, 2, 3] (by decide) (by decide) rfl (by decide)
    (by decide) rfl
  h.1 [7] rfl

/-- Counterexample to C2 as stated: with a failing frame extraction the
invocation ends in the catch with the persisted input scratch file
"/tmp/movie.mp4" still on disk — cleanup is not unconditional. -/
theorem video_scratch_not_cleaned_on_failure :
    (onObjectCreated ffmpegFailEnv "movie.mp4").outcome
        = ConvOutcome.caught ∧
    (onObjectCreated ffmpegFailEnv "movie.mp4").tmpCreated
        = ["/tmp/movie.mp4"] ∧
    (onObjectCreated ffmpegFailEnv "movie.mp4").tmpFiles
        = ["/tmp/movie.mp4"] ∧
    (["/tmp/movie.mp4"] : List String) ≠ [] := by
  refine ⟨by decide, by decide, by decide, by decide⟩

/-- C3 (amended): whenever the delivered key decodes successfully, the
converter invocation never ends by propagating an exception — every fault
in probing, downloading, converting or uploading is caught by the
handler's try/catch, whatever the collaborators do. -/
theorem conversion_faults_are_caught (env : ConvEnv) (raw key : String)
    (hdec : decodeS3Key raw = some key) :
    (onObjectCreated env raw).outcome ≠ ConvOutcome.propagated :=
  (onObjectCreated_shape env raw key hdec).1

/-- Witness for C3's amended theorem: the key "movie.mp4" decodes, and the
invocation with a failing ffmpeg ends caught, not propagated. -/
theorem conversion_faults_are_caught_witness :
    (onObjectCreated ffmpegFailEnv "movie.mp4").outcome
      ≠ ConvOutcome.propagated :=
  conversion_faults_are_caught ffmpegFailEnv "movie.mp4" "movie.mp4"
    (by decide)

/-- Counterexample to C3 as stated: the key decode
(decodeURIComponent) runs before the try block, so the malformed key "%"
throws and the exception escapes the handler. -/
theorem malformed_key_propagates :
    decodeS3Key "%" = none ∧
    (onObjectCreated pdfEnv "%").outcome = ConvOutcome.propagated := by
  refine ⟨by decide, by decide⟩

/-- C9: a decoded key under the thumbnail prefix makes the handler return
after only logging (no head read, no download, no conversion, no upload,
no scratch file); a non-image non-video content type makes it return after
only the metadata-only head read. -/
theorem converter_skip_branches_do_nothing
    (env : ConvEnv) (raw key ct : String)
    (hdec : decodeS3Key raw = some key) :
    (strStartsWith key THUMBNAIL_PREFIX = true →
      onObjectCreated env raw = { outcome := ConvOutcome.skippedThumbnail }) ∧
    (strStartsWith key THUMBNAIL_PREFIX = false →
      env.head key = some ct →
      strStartsWith ct "image/" = false →
      strStartsWith ct "video/" = false →
      onObjectCreated env raw
        = { outcome := ConvOutcome.skippedNonMedia, headKeys := [key] }) := by
  constructor
  · intro hpre
    simp [onObjectCreated, hdec, hpre]
  · intro hpre hhead himg hvid
    simp [onObjectCreated, hdec, hpre, hhead, himg, hvid]

/-- Witness for C9: a key under thumbnails/ is skipped outright, and
"report.pdf" with content type application/pdf is skipped after only the
head read. -/
theorem converter_skip_branches_do_nothing_witness :
    onObjectCreated pdfEnv "thumbnails/pic.jpg"
        = { outcome := ConvOutcome.skippedThumbnail } ∧
    onObjectCreated pdfEnv "report.pdf"
        = { outcome := ConvOutcome.skippedNonMedia,
            headKeys := ["report.pdf"] } :=
  ⟨(converter_skip_branches_do_nothing pdfEnv "thumbnails/pic.jpg"
      "thumbnails/pic.jpg" "x" (by decide)).1 (by decide),
   (converter_skip_branches_do_nothing pdfEnv "report.pdf" "report.pdf"
      "application/pdf" (by decide)).2 (by decide) rfl (by decide)
      (by decide)⟩

/-- C10: the metadata updater keys its conditional update by the object key
exactly as delivered (its update can only change the row at that verbatim
key), while the media converter heads and downloads only the decoded
(plus-to-space, percent-decoded) key; when the decoded key differs from
the delivered one, the delivered key is never among the keys the converter
reads. -/
theorem updater_verbatim_converter_decoded
    (raw key now : String) (record : S3EventRecord) (table : Table)
    (env : ConvEnv)
    (hrec : record.key = raw)
    (hdec : decodeS3Key raw = some key)
    (hne : key ≠ raw) :
    (∀ k, k ≠ raw →
      lookupTable (onObjectWrittenV2 now record table) k
        = lookupTable table k) ∧
    ((onObjectCreated env raw).headKeys = []
      ∨ (onObjectCreated env raw).headKeys = [key]) ∧
    ((onObjectCreated env raw).getKeys = []
      ∨ (onObjectCreated env raw).getKeys = [key]) ∧
    raw ∉ (onObjectCreated env raw).headKeys ∧
    raw ∉ (onObjectCreated env raw).getKeys := by
  have hshape := onObjectCreated_shape env raw key hdec
  refine ⟨?_, hshape.2.1, hshape.2.2, ?_, ?_⟩
  · intro k hk
    have hk2 : ¬ record.key = k := by rw [hrec]; exact fun h2 => hk h2.symm
    unfold onObjectWrittenV2 updateItemIfExists
    cases h : lookupTable table record.key with
    | none => rfl
    | some r => simp [lookupTable_putTable, hk2]
  · rcases hshape.2.1 with h | h <;> rw [h]
    · exact List.not_mem_nil raw
    · intro hm
      rcases List.mem_singleton.mp hm with h2
      exact hne h2.symm
  · rcases hshape.2.2 with h | h <;> rw [h]
    · exact List.not_mem_nil raw
    · intro hm
      rcases List.mem_singleton.mp hm with h2
      exact hne h2.symm

/-- Witness for C10: the delivered key "a+b" decodes to "a b"; the updater
row at "a+b" is the only one it can touch, and the converter reads only
"a b". -/
theorem updater_verbatim_converter_decoded_witness :
    lookupTable
        (onObjectWrittenV2 "t1" ⟨"a+b", 4, none⟩
          [("x", ⟨"x.txt", "text/plain", "pending", "t0", none, none⟩)])
        "x"
      = lookupTable
          [("x", ⟨"x.txt", "text/plain", "pending", "t0", none, none⟩)]
          "x" ∧
    "a+b" ∉ (onObjectCreated pdfEnv "a+b").headKeys :=
  have h := updater_verbatim_converter_decoded "a+b" "a b" "t1"
    ⟨"a+b", 4, none⟩
    [("x", ⟨"x.txt", "text/plain", "pending", "t0", none, none⟩)]
    pdfEnv rfl (by decide) (by decide)
  ⟨h.1 "x" (by decide), h.2.2.2.1⟩

theorem onObjectWrittenV2_lookup (now : String) (rec : S3EventRecord)
    (table : Table) (k : String) :
    lookupTable (onObjectWrittenV2 now rec table) k
      = if rec.key = k then
          match lookupTable table rec.key with
          | some r => some (applyCompletedUpdateV2 now
              (getContentTypeFromRecord rec) rec.size r)
          | none => none
        else lookupTable table k := by
  unfold onObjectWrittenV2 updateItemIfExists
  cases h : lookupTable table rec.key with
  | none =>
    by_cases hk : rec.key = k
    · subst hk
      simp [h]
    · simp [hk]
  | some r =>
    simp [lookupTable_putTable, h]

theorem issueUploadUrl_lookup_ne (fileId now fn ct : String)
    (store : ObjectStore) (table : Table) (k : String)
    (hk : ¬ fileId = k) :
    lookupTable (issueUploadUrl fileId now (some fn) (some ct) store
        table).table k = lookupTable table k := by
  simp only [issueUploadUrl]
  by_cases h1 : fn = "" ∨ ct = ""
  · rw [if_pos h1]
  · rw [if_neg h1]
    by_cases h2 : (!isValidFileName fn || !isValidContentType ct) = true
    · rw [if_pos h2]
    · rw [if_neg h2]
      simp [lookupTable_putTable, hk]

/-- The key is an identifier the generator already produced, and its row,
when present, has completed status. -/
def CompletedOrAbsent (s : SysState) (k : String) : Prop :=
  s.used.contains k = true ∧
    (lookupTable s.table k = none ∨
     ∃ r, lookupTable s.table k = some r ∧ r.status = "completed")

/-- Every key of the table is an identifier the generator produced. -/
def TableKeysUsed (s : SysState) : Prop :=
  ∀ k r, lookupTable s.table k = some r → s.used.contains k = true

theorem applySysOp_preserves_tableKeysUsed (s : SysState) (op : SysOp)
    (h : TableKeysUsed s) : TableKeysUsed (applySysOp s op) := by
  cases op with
  | upload fileId now fn ct =>
    intro k r hr
    simp only [applySysOp] at hr ⊢
    by_cases hk : fileId = k
    · subst hk
      simp [List.contains, List.elem_eq_mem]
    · rw [issueUploadUrl_lookup_ne fileId now fn ct s.store s.table k hk]
        at hr
      have hmem := h k r hr
      simp [List.contains, List.elem_eq_mem] at hmem ⊢
      exact Or.inr hmem
  | objectWritten now rec =>
    intro k r hr
    simp only [applySysOp] at hr ⊢
    rw [onObjectWrittenV2_lookup] at hr
    by_cases hk : rec.key = k
    · rw [if_pos hk] at hr
      cases hlook : lookupTable s.table rec.key with
      | none =>
        rw [hlook] at hr
        cases hr
      | some r0 =>
        have hmem := h rec.key r0 hlook
        rw [hk] at hmem
        exact hmem
    · rw [if_neg hk] at hr
      exact h k r hr
  | deleteReq fileId =>
    intro k r hr
    simp only [applySysOp, deleteFile] at hr ⊢
    rw [lookupTable_deleteTable] at hr
    by_cases hk : fileId = k
    · rw [if_pos hk] at hr
      cases hr
    · rw [if_neg hk] at hr
      exact h k r hr

theorem applySysOp_preserves_completedOrAbsent (s : SysState) (op : SysOp)
    (k : String)
    (hfresh : (match op with
               | SysOp.upload fileId _ _ _ => !(s.used.contains fileId)
               | _ => true) = true)
    (h : CompletedOrAbsent s k) :
    CompletedOrAbsent (applySysOp s op) k := by
  obtain ⟨hu, hrec⟩ := h
  cases op with
  | upload fileId now fn ct =>
    have hfresh2 : (!(s.used.contains fileId)) = true := hfresh
    have hff : s.used.contains fileId = false := by
      cases hcf : s.used.contains fileId
      · rfl
      · rw [hcf] at hfresh2
        exact Bool.noConfusion hfresh2
    have hne : ¬ fileId = k := by
      intro he
      rw [he, hu] at hff
      cases hff
    constructor
    · simp only [applySysOp]
      simp [List.contains, List.elem_eq_mem] at hu ⊢
      exact Or.inr hu
    · simp only [applySysOp]
      rw [issueUploadUrl_lookup_ne fileId now fn ct s.store s.table k hne]
      exact hrec
  | objectWritten now rec =>
    refine ⟨hu, ?_⟩
    simp only [applySysOp]
    rw [onObjectWrittenV2_lookup]
    by_cases hk : rec.key = k
    · rw [if_pos hk, hk]
      rcases hrec with hnone | ⟨r, hr, _⟩
      · rw [hnone]
        exact Or.inl rfl
      · rw [hr]
        exact Or.inr ⟨_, rfl, rfl⟩
    · rw [if_neg hk]
      exact hrec
  | deleteReq fileId =>
    refine ⟨hu, ?_⟩
    simp only [applySysOp, deleteFile]
    rw [lookupTable_deleteTable]
    by_cases hk : fileId = k
    · rw [if_pos hk]
      exact Or.inl rfl
    · rw [if_neg hk]
      exact hrec

theorem runSysOps_append (s : SysState) (l1 l2 : List SysOp) :
    runSysOps s (l1 ++ l2) = runSysOps (runSysOps s l1) l2 := by
  induction l1 generalizing s with
  | nil => rfl
  | cons op l1 ih =>
    simp only [List.cons_append, runSysOps]
    exact ih _

theorem freshIds_append_right (s : SysState) (l1 l2 : List SysOp)
    (h : freshIds s (l1 ++ l2) = true) :
    freshIds (runSysOps s l1) l2 = true := by
  induction l1 generalizing s with
  | nil => exact h
  | cons op l1 ih =>
    simp only [List.cons_append, freshIds, Bool.and_eq_true] at h
    exact ih _ h.2

theorem runSysOps_preserves_tableKeysUsed (l : List SysOp) :
    ∀ s, TableKeysUsed s → TableKeysUsed (runSysOps s l) := by
  induction l with
  | nil => intro s h; exact h
  | cons op l ih =>
    intro s h
    exact ih _ (applySysOp_preserves_tableKeysUsed s op h)

theorem runSysOps_preserves_completedOrAbsent (l : List SysOp) :
    ∀ s k, freshIds s l = true → CompletedOrAbsent s k →
      CompletedOrAbsent (runSysOps s l) k := by
  induction l with
  | nil => intro s k _ h; exact h
  | cons op l ih =>
    intro s k hf h
    simp only [freshIds, Bool.and_eq_true] at hf
    exact ih _ k hf.2
      (applySysOp_preserves_completedOrAbsent s op k hf.1 h)

/-- C8: along any run from the initial state whose uploads use fresh uuid
values, a record that is completed at some point is, at every later point,
either deleted or still completed — its status never moves back to
pending. -/
theorem status_never_regresses (ops1 ops2 : List SysOp) (k : String)
    (r1 r2 : FileRecord)
    (hfresh : freshIds initSysState (ops1 ++ ops2) = true)
    (h1 : lookupTable (runSysOps initSysState ops1).table k = some r1)
    (hc : r1.status = "completed")
    (h2 : lookupTable (runSysOps initSysState (ops1 ++ ops2)).table k
      = some r2) :
    r2.status = "completed" := by
  have hmidTKU : TableKeysUsed (runSysOps initSysState ops1) :=
    runSysOps_preserves_tableKeysUsed ops1 initSysState
      (fun k r h => by simp [initSysState, lookupTable] at h)
  have hca : CompletedOrAbsent (runSysOps initSysState ops1) k :=
    ⟨hmidTKU k r1 h1, Or.inr ⟨r1, h1, hc⟩⟩
  have hf2 := freshIds_append_right initSysState ops1 ops2 hfresh
  have hfin := runSysOps_preserves_completedOrAbsent ops2
    (runSysOps initSysState ops1) k hf2 hca
  rw [runSysOps_append] at h2
  rcases hfin.2 with hnone | ⟨r3, hr3, hc3⟩
  · rw [h2] at hnone
    cases hnone
  · rw [h2] at hr3
    injection hr3 with he
    rw [← he] at hc3
    exact hc3

/-- Witness for C8: upload of "id1", its completion notification, then an
unrelated delete; the record at "id1" is completed midway and still
completed at the end. -/
theorem status_never_regresses_witness :
    (⟨"a.txt", "text/plain", "completed", "t0", some "t1", some 5⟩ :
      FileRecord).status = "completed" :=
  status_never_regresses
    [SysOp.upload "id1" "t0" "a.txt" "text/plain",
     SysOp.objectWritten "t1" ⟨"id1", 5, some "text/plain"⟩]
    [SysOp.deleteReq "zzz"] "id1"
    ⟨"a.txt", "text/plain", "completed", "t0", some "t1", some 5⟩
    ⟨"a.txt", "text/plain", "completed", "t0", some "t1", some 5⟩
    (by decide) (by decide) (by decide) (by decide)

end FileUploadAws
